import Mathlib

/-!
Verification of the driffle_tool pricing decision engine.

Shallow embedding of the core pricing logic:
  * `services/analyze_g2a_competition.py` — `CompetitionAnalysisService.analyze_competition`
  * `logic/universal_processor.py` — `UniversalProcessor._calc_final_price`,
    `_is_price_diff_significant`, `_validate_payload`, `process_single_payload`
  * `models/logic_models.py`, `models/standard_models.py` — the record types.

Python floats are modelled as exact rationals (ℚ); the single random draw of
`random.uniform` in `_calc_final_price` is passed in as an explicit parameter `d`;
the adapter fetches (`get_my_offer_details`, `get_competitor_prices`) are passed
in as explicit arguments.  A Python exception raised inside the `try` block of
`process_single_payload` is modelled with `Except`, carrying the error text and
the payload as mutated so far (Python mutates the payload object in place, so
the top-level handler sees those mutations).
-/

namespace DriffleTool

/-- From `models/standard_models.py`: `StandardCompetitorOffer`. -/
structure StandardCompetitorOffer where
  price : ℚ
  seller_name : String
  rating : ℤ := 0
  is_eligible : Bool := true
  note : Option String := none
deriving Repr, DecidableEq

/-- From `models/standard_models.py`: `StandardCurrentOffer`. -/
structure StandardCurrentOffer where
  offer_id : String
  price : ℚ
  status : String
  offer_type : String
  currency : String := "EUR"
deriving Repr, DecidableEq

/-- Modelled from the spec: `models/sheet_models.py` (`Payload`) is imported by the
core but absent from the sources.  Fields are the PricingConfig fields of the spec:
comparison mode, optional randomization band, optional rounding precision, optional
fetched price bounds, optional seller blacklist, plus the mutable scratch fields
`current_price`, `offer_id`, `applied_adj` written by the engine. -/
structure Payload where
  product_name : String
  product_id : String := ""
  product_compare : Option String := some ("")
  compare_mode : ℤ := 1
  min_price_adjustment : Option ℚ := none
  max_price_adjustment : Option ℚ := none
  price_rounding : Option ℤ := none
  fetched_min_price : Option ℚ := none
  fetched_max_price : Option ℚ := none
  fetched_black_list : Option (List String) := none
  current_price : ℚ := 0
  offer_id : Option String := none
  applied_adj : ℚ := 0
deriving Repr, DecidableEq

/-- Modelled from the spec: `Payload.get_min_price_value` lives in the missing
`models/sheet_models.py`; per the spec the configured price floor is the
`fetched_min_price` bound. -/
def Payload.get_min_price_value (p : Payload) : Option ℚ :=
  p.fetched_min_price

/-- Modelled from the spec: `Payload.get_compare_mode` lives in the missing
`models/sheet_models.py`; per the spec it is the row's `compare_mode ∈ {0,1,2}`. -/
def Payload.get_compare_mode (p : Payload) : ℤ :=
  p.compare_mode

/-- From `models/logic_models.py`: `CompareTarget` — pydantic requires `name` to be a
real string; constructing it from `None` raises a `ValidationError`. -/
structure CompareTarget where
  name : String
  price : ℚ
deriving Repr, DecidableEq

/-- From `models/logic_models.py`: `AnalysisResult`. -/
structure AnalysisResult where
  competitor_name : Option String := none
  competitive_price : Option ℚ := none
  top_sellers_for_log : Option (List StandardCompetitorOffer) := none
  sellers_below_min : Option (List StandardCompetitorOffer) := none
deriving Repr, DecidableEq

/-- From `models/logic_models.py`: `PayloadResult` — `status` is 1 for update, 0 for
failure, 2 for hold. -/
structure PayloadResult where
  status : ℕ
  payload : Payload
  competition : Option (List StandardCompetitorOffer) := none
  final_price : Option CompareTarget := none
  log_message : Option String := none
  offer_id : Option String := none
  offer_type : Option String := none
deriving Repr, DecidableEq

/-- Python's `str.lower()`, applied to seller names: per-character lowercasing
(`Char.toLower` is exactly the ASCII case map), written as a map over the
character list so that it is computable by the kernel. -/
def pyLower (s : String) : String :=
  ⟨s.data.map Char.toLower⟩

/-- From `services/analyze_g2a_competition.py` line 17: an offer survives when its
lowercased seller name is not among the lowercased blacklist entries. -/
def isBlacklisted (blacklist : List String) (name : String) : Bool :=
  (blacklist.map pyLower).contains (pyLower name)

/-- Python's `min(offers, key=lambda o: o.price)` on a non-empty list: fold that
replaces the running best only on a strictly smaller price, so the first
minimum wins. -/
def pyMinByPrice (a : StandardCompetitorOffer) (l : List StandardCompetitorOffer) :
    StandardCompetitorOffer :=
  l.foldl (fun best x => if x.price < best.price then x else best) a

/-- From `services/analyze_g2a_competition.py`:
`CompetitionAnalysisService.analyze_competition`. -/
def analyze_competition (payload : Payload) (offers : List StandardCompetitorOffer) :
    AnalysisResult :=
  let blacklist := payload.fetched_black_list.getD []
  let filtered_offers := offers.filter (fun o => !(isBlacklisted blacklist o.seller_name))
  match filtered_offers with
  | [] =>
      { competitor_name := none
        competitive_price := none
        top_sellers_for_log := some offers
        sellers_below_min := some [] }
  | o :: rest =>
      let lowest_offer := pyMinByPrice o rest
      let sellers_below_min :=
        match payload.get_min_price_value with
        | none => ([] : List StandardCompetitorOffer)
        | some minV => offers.filter (fun o => decide (o.price < minV))
      { competitor_name := some lowest_offer.seller_name
        competitive_price := some lowest_offer.price
        top_sellers_for_log := some offers
        sellers_below_min := some sellers_below_min }

/-- Modelled from the spec: `utils/utils.py` (`round_up_to_n_decimals`) is imported
by the core but absent from the sources; per the spec, rounding is *ceiling* to
`n` decimal places (a listing must never round down below the computed floor). -/
def round_up_to_n_decimals (x : ℚ) (n : ℤ) : ℚ :=
  (Int.ceil (x * 10 ^ n) : ℚ) / 10 ^ n

/-- Modelled from the spec: the missing rounding helper applied to an optional
precision — mode 0 passes `payload.price_rounding` through unexamined, and per
the spec rounding only happens "if `price_rounding` is set". -/
def round_up_opt (x : ℚ) (n : Option ℤ) : ℚ :=
  match n with
  | none => x
  | some n => round_up_to_n_decimals x n

/-- Modelled from the spec: `utils/g2a_logger.py` (`get_g2a_log_string`) is absent
from the sources; it only produces the human-readable audit string, which the spec
treats as free-form text, so it is modelled as the branch tag itself. -/
def mkLog (tag : String) : String := tag

/-- From `logic/universal_processor.py` lines 20–53:
`UniversalProcessor._calc_final_price`, body after the `None` / infinity
short-circuit.  `d` is the value drawn by `random.uniform(min_adj, max_adj)`;
it is recorded in `applied_adj` and subtracted only when both adjustment
bounds are present.  Returns the payload (mutated in place in Python) and the
computed price. -/
def calc_price_body (p : Payload) (price : ℚ) (d : ℚ) : Payload × ℚ :=
  let pd : Payload × ℚ :=
    match p.min_price_adjustment, p.max_price_adjustment with
    | some _, some _ => ({ p with applied_adj := d }, price - d)
    | _, _ => (p, price)
  let p := pd.1
  let price := pd.2
  let price := match p.fetched_min_price with
    | some m => max price m
    | none => price
  let price := match p.fetched_max_price with
    | some m => min price m
    | none => price
  let price := match p.price_rounding with
    | some n => round_up_to_n_decimals price n
    | none => price
  (p, price)

/-- From `logic/universal_processor.py` lines 20–53: `UniversalProcessor._calc_final_price`.
`applied_adj` is reset to `0.0` at entry.  When the candidate `price` is `None` it is
replaced by `fetched_max_price` if present, else by `float('inf')`; a price equal to
infinity returns `payload.fetched_max_price` directly — which at that point is the
Python value `None`, modelled as `none`. -/
def calc_final_price (p : Payload) (price : Option ℚ) (d : ℚ) : Payload × Option ℚ :=
  let p0 := { p with applied_adj := (0 : ℚ) }
  match price with
  | some pr =>
      let r := calc_price_body p0 pr d
      (r.1, some r.2)
  | none =>
      match p0.fetched_max_price with
      | none => (p0, none)
      | some m =>
          let r := calc_price_body p0 m d
          (r.1, some r.2)

/-- From `logic/universal_processor.py` lines 55–67: `UniversalProcessor._validate_payload`. -/
def validate_payload (p : Payload) : Bool :=
  !(p.product_name = "") &&
  !(match p.price_rounding with
    | some n => decide (n < 0)
    | none => false) &&
  p.product_compare.isSome

/-- The update-significance threshold of
`logic/universal_processor.py` lines 68–85: `step` is `1 / 10 ** price_rounding`
when rounding is configured, else `0.01`; `random_noise` is
`abs(max_price_adjustment - min_price_adjustment)` when both bounds are present,
else `0`; the threshold is `max(random_noise + step * 0.5, step * 1.5)`. -/
def sig_threshold (p : Payload) : ℚ :=
  let step : ℚ :=
    match p.price_rounding with
    | some n => 1 / 10 ^ n
    | none => 1 / 100
  let random_noise : ℚ :=
    match p.min_price_adjustment, p.max_price_adjustment with
    | some a, some b => |b - a|
    | _, _ => 0
  max (random_noise + step * (1 / 2)) (step * (3 / 2))

/-- From `logic/universal_processor.py` lines 68–85:
`UniversalProcessor._is_price_diff_significant`. -/
def is_price_diff_significant (p : Payload) (price1 price2 : ℚ) : Bool :=
  decide (|price1 - price2| > sig_threshold p)

/-- Constructing `CompareTarget(name=..., price=...)` in
`logic/universal_processor.py`: pydantic raises a `ValidationError` when `name`
is `None`. -/
def mkCompareTarget (p : Payload) (name : Option String) (price : ℚ) :
    Except (String × Payload) CompareTarget :=
  match name with
  | none => .error ("ValidationError: CompareTarget.name must be a string", p)
  | some n => .ok { name := n, price := price }

/-- From `logic/universal_processor.py` lines 163–174 (Step 2): candidate target price,
competitor name and analysis result for modes 1 and 2.  With no competitor offers
the calculator runs on `None` and the name is the literal `"No Competition"`;
otherwise the analyzer's competitive price is fed to the calculator. -/
def computeCandidate (p : Payload) (offers : List StandardCompetitorOffer) (d : ℚ) :
    Payload × Option ℚ × Option String × Option AnalysisResult :=
  if offers.isEmpty then
    let r := calc_final_price p none d
    (r.1, r.2, some ("No Competition"), none)
  else
    let ar := analyze_competition p offers
    let r := calc_final_price p ar.competitive_price d
    (r.1, r.2, ar.competitor_name, some ar)

/-- From `logic/universal_processor.py` lines 186–233: the mode-1 / mode-2 dispatch
reached once floor protection has produced a concrete float `target`. -/
def modeDispatch (mode : ℤ) (p : Payload) (offers : List StandardCompetitorOffer)
    (cname : Option String) (target : ℚ) (otype : String) :
    Except (String × Payload) PayloadResult :=
  if mode = 1 then
    if !(is_price_diff_significant p p.current_price target) then
      .ok { status := 2, payload := p, log_message := some (mkLog ("equal")),
            offer_id := p.offer_id }
    else
      (mkCompareTarget p cname target).map fun ct =>
        { status := 1, payload := p, competition := some offers,
          final_price := some ct, log_message := some (mkLog ("compare")),
          offer_id := p.offer_id, offer_type := some otype }
  else if mode = 2 then
    if decide (p.current_price < target) && is_price_diff_significant p p.current_price target then
      .ok { status := 2, payload := p, log_message := some (mkLog ("equal_mode2_keep")),
            offer_id := p.offer_id }
    else if !(is_price_diff_significant p p.current_price target) then
      .ok { status := 2, payload := p, log_message := some (mkLog ("equal")),
            offer_id := p.offer_id }
    else
      (mkCompareTarget p cname target).map fun ct =>
        { status := 1, payload := p, competition := some offers,
          final_price := some ct, log_message := some (mkLog ("compare")),
          offer_id := p.offer_id, offer_type := some otype }
  else
    .ok { status := 0, payload := p, log_message := some (mkLog ("Unknown Mode")) }

/-- From `logic/universal_processor.py` lines 172–184 (Step 3, min-price protection)
followed by the mode dispatch: no floor ⇒ fail; current below floor ⇒ force the
target to the floor and zero `applied_adj`; else a computed candidate below the
floor ⇒ fail.  Comparing a `None` target with the floor raises a `TypeError` in
Python, modelled as an `Except.error`. -/
def floorProtectAndDispatch (mode : ℤ) (p : Payload)
    (offers : List StandardCompetitorOffer) (cname : Option String)
    (target : Option ℚ) (otype : String) : Except (String × Payload) PayloadResult :=
  match p.get_min_price_value with
  | none =>
      .ok { status := 0, payload := p, final_price := none,
            log_message := some (mkLog ("no_min_price")) }
  | some minV =>
      if p.current_price < minV then
        let p := { p with applied_adj := (0 : ℚ) }
        modeDispatch mode p offers cname minV otype
      else
        match target with
        | none =>
            .error ("TypeError: '<' not supported between NoneType and float", p)
        | some t =>
            if t < minV then
              .ok { status := 0, payload := p, final_price := none,
                    log_message := some (mkLog ("below_min")) }
            else
              modeDispatch mode p offers cname t otype

/-- From `logic/universal_processor.py` lines 86–237: the body of the `try` block of
`UniversalProcessor.process_single_payload`, after the current offer has been
fetched successfully. -/
def process_core (p : Payload) (cur : StandardCurrentOffer)
    (offers : List StandardCompetitorOffer) (d : ℚ) :
    Except (String × Payload) PayloadResult :=
  let p := { p with current_price := cur.price, offer_id := some cur.offer_id }
  let otype := cur.offer_type
  let mode := p.get_compare_mode
  if mode = 0 then
    match p.fetched_min_price with
    | none => .ok { status := 0, payload := p, log_message := some ("Mode 0: No Min Price") }
    | some minP =>
        let final_price := round_up_opt minP p.price_rounding
        let p := { p with applied_adj := (0 : ℚ) }
        if !(is_price_diff_significant p p.current_price final_price) then
          .ok { status := 2, payload := p, log_message := some (mkLog ("equal")),
                offer_id := p.offer_id }
        else
          .ok { status := 1, payload := p,
                final_price := some { name := "No Comparison", price := final_price },
                log_message := some (mkLog ("not_compare")),
                offer_id := p.offer_id, offer_type := some otype }
  else
    let c := computeCandidate p offers d
    floorProtectAndDispatch mode c.1 offers c.2.2.1 c.2.1 otype

/-- From `logic/universal_processor.py` lines 86–237: `UniversalProcessor.process_single_payload`.
`cur` is what `get_my_offer_details` returned (`none` models a falsy response),
`offers` is the offer list of the `CompetitionResult` from `get_competitor_prices`,
and `d` the value drawn by `random.uniform`.  The top-level `except` handler turns
any raised exception into a `status = 0` result. -/
def process_single_payload (p : Payload) (cur : Option StandardCurrentOffer)
    (offers : List StandardCompetitorOffer) (d : ℚ) : PayloadResult :=
  if !(validate_payload p) then
    { status := 0, payload := p, log_message := some ("Payload validation failed.") }
  else
    match cur with
    | none => { status := 0, payload := p, log_message := some ("Fetch Current Details Failed") }
    | some cur =>
        match process_core p cur offers d with
        | .ok r => r
        | .error ep =>
            { status := 0, payload := ep.2, log_message := some ("Error: " ++ ep.1),
              final_price := none }

/-! ### Properties of the Python `min(..., key=...)` fold -/

theorem pyMinByPrice_le (l : List StandardCompetitorOffer) (a : StandardCompetitorOffer) :
    (pyMinByPrice a l).price ≤ a.price ∧
      ∀ x ∈ l, (pyMinByPrice a l).price ≤ x.price := by
  induction l generalizing a with
  | nil => exact ⟨le_refl _, by simp⟩
  | cons x xs ih =>
      have hstep : pyMinByPrice a (x :: xs) =
          pyMinByPrice (if x.price < a.price then x else a) xs := rfl
      obtain ⟨h1, h2⟩ := ih (if x.price < a.price then x else a)
      have hb : (if x.price < a.price then x else a).price ≤ a.price ∧
          (if x.price < a.price then x else a).price ≤ x.price := by
        by_cases h : x.price < a.price
        · simp [h, le_of_lt h]
        · simp [h, le_of_not_lt h]
      rw [hstep]
      refine ⟨h1.trans hb.1, ?_⟩
      intro y hy
      rcases List.mem_cons.mp hy with rfl | hy
      · exact h1.trans hb.2
      · exact h2 y hy

/-- The fold behind `min(filtered_offers, key=lambda o: o.price)` picks the first
offer of minimal price: the list splits around the result, with strictly larger
prices before it and no smaller price after it. -/
theorem pyMinByPrice_first_min (l : List StandardCompetitorOffer)
    (a : StandardCompetitorOffer) :
    ∃ pre suf, a :: l = pre ++ pyMinByPrice a l :: suf ∧
      (∀ x ∈ pre, (pyMinByPrice a l).price < x.price) ∧
      (∀ x ∈ suf, (pyMinByPrice a l).price ≤ x.price) := by
  induction l generalizing a with
  | nil => exact ⟨[], [], rfl, by simp, by simp⟩
  | cons x xs ih =>
      have hstep : pyMinByPrice a (x :: xs) =
          pyMinByPrice (if x.price < a.price then x else a) xs := rfl
      by_cases h : x.price < a.price
      · rw [hstep, if_pos h]
        obtain ⟨pre, suf, hdecomp, hpre, hsuf⟩ := ih x
        refine ⟨a :: pre, suf, ?_, ?_, hsuf⟩
        · rw [List.cons_append, ← hdecomp]
        · intro y hy
          rcases List.mem_cons.mp hy with rfl | hy
          · exact lt_of_le_of_lt (pyMinByPrice_le xs x).1 h
          · exact hpre y hy
      · rw [hstep, if_neg h]
        obtain ⟨pre, suf, hdecomp, hpre, hsuf⟩ := ih a
        cases pre with
        | nil =>
            simp only [List.nil_append, List.cons.injEq] at hdecomp
            obtain ⟨hr, hs⟩ := hdecomp
            refine ⟨[], x :: xs, ?_, by simp, ?_⟩
            · simp [← hr]
            · intro y hy
              rcases List.mem_cons.mp hy with rfl | hy
              · rw [← hr]; exact le_of_not_lt h
              · exact hsuf y (hs ▸ hy)
        | cons b pre' =>
            simp only [List.cons_append, List.cons.injEq] at hdecomp
            obtain ⟨hb, hs⟩ := hdecomp
            refine ⟨a :: x :: pre', suf, ?_, ?_, hsuf⟩
            · rw [List.cons_append, List.cons_append, ← hs]
            · intro y hy
              have hra : (pyMinByPrice a xs).price < a.price := by
                have := hpre b (List.mem_cons_self b pre')
                rwa [← hb] at this
              rcases List.mem_cons.mp hy with rfl | hy
              · exact hra
              · rcases List.mem_cons.mp hy with rfl | hy
                · exact hra.trans_le (le_of_not_lt h)
                · exact hpre y (List.mem_cons_of_mem b hy)

/-! ### Claims about the Competition Analyzer -/

/-- C7: for every config and non-empty offer list, the analyzer filters out
offers whose seller name case-insensitively matches a blacklist entry; if at
least one offer survives, the competitive target is the minimum-price surviving
offer with ties broken by list order (first minimum wins); if none survive,
`competitor_name` and `competitive_price` are both null and the raw-offer audit
list is still populated with the unfiltered input offers. -/
theorem analyze_competition_filter_first_min (payload : Payload)
    (offers : List StandardCompetitorOffer) (_hne : offers ≠ []) :
    (analyze_competition payload offers).top_sellers_for_log = some offers ∧
    (offers.filter
        (fun o => !(isBlacklisted (payload.fetched_black_list.getD []) o.seller_name)) = [] →
      (analyze_competition payload offers).competitor_name = none ∧
      (analyze_competition payload offers).competitive_price = none) ∧
    (offers.filter
        (fun o => !(isBlacklisted (payload.fetched_black_list.getD []) o.seller_name)) ≠ [] →
      ∃ w pre suf,
        (analyze_competition payload offers).competitor_name = some w.seller_name ∧
        (analyze_competition payload offers).competitive_price = some w.price ∧
        offers.filter
            (fun o => !(isBlacklisted (payload.fetched_black_list.getD []) o.seller_name)) =
          pre ++ w :: suf ∧
        (∀ x ∈ pre, w.price < x.price) ∧
        (∀ x ∈ suf, w.price ≤ x.price)) := by
  cases hf : offers.filter
      (fun o => !(isBlacklisted (payload.fetched_black_list.getD []) o.seller_name)) with
  | nil =>
      refine ⟨?_, fun _ => ⟨?_, ?_⟩, fun hcontra => absurd rfl hcontra⟩ <;>
        simp [analyze_competition, hf]
  | cons o rest =>
      obtain ⟨pre, suf, hdecomp, hpre, hsuf⟩ := pyMinByPrice_first_min rest o
      refine ⟨?_, fun h => absurd h (List.cons_ne_nil o rest), ?_⟩
      · simp [analyze_competition, hf]
      · intro _
        refine ⟨pyMinByPrice o rest, pre, suf, ?_, ?_, hdecomp, hpre, hsuf⟩ <;>
          simp [analyze_competition, hf]

/-- C7 witness: three offers with one blacklisted seller (matched
case-insensitively) and a price tie between the survivors; the analyzer picks
the first of the two tied minimum offers. -/
theorem analyze_competition_filter_first_min_witness :
    (analyze_competition
        { product_name := "g", fetched_black_list := some ["CheapCo"] }
        [ { price := 3, seller_name := "cheapco" },
          { price := 5, seller_name := "B" },
          { price := 5, seller_name := "C" } ]).competitor_name = some ("B") ∧
    (analyze_competition
        { product_name := "g", fetched_black_list := some ["CheapCo"] }
        [ { price := 3, seller_name := "cheapco" },
          { price := 5, seller_name := "B" },
          { price := 5, seller_name := "C" } ]).competitive_price = some 5 := by
  obtain ⟨w, pre, suf, hname, hprice, hdecomp, hpre, hsuf⟩ :=
    (analyze_competition_filter_first_min
      { product_name := "g", fetched_black_list := some ["CheapCo"] }
      [ { price := 3, seller_name := "cheapco" },
        { price := 5, seller_name := "B" },
        { price := 5, seller_name := "C" } ] (by decide)).2.2 (by decide)
  exact ⟨by decide, by decide⟩

/-- C1 counterexample: with a price floor of 10 and the single raw offer priced 5
belonging to a blacklisted seller, the analyzer's early return on an empty
filtered list reports `sellers_below_min = []`, while the same offers with no
blacklist report that raw offer — so `sellers_below_min` is *not* the set of raw
offers below the floor (which is non-empty here), and blacklisting a seller *did*
change it. -/
theorem sellers_below_min_gated_by_blacklist_counterexample :
    (analyze_competition
        { product_name := "g", fetched_min_price := some 10,
          fetched_black_list := some ["A"] }
        [ { price := 5, seller_name := "A" } ]).sellers_below_min = some [] ∧
    (analyze_competition
        { product_name := "g", fetched_min_price := some 10 }
        [ { price := 5, seller_name := "A" } ]).sellers_below_min =
      some [ { price := 5, seller_name := "A" } ] ∧
    ({ price := 5, seller_name := "A" } : StandardCompetitorOffer).price < 10 := by
  exact ⟨by decide, by decide, by decide⟩

/-- C1 (amended): `sellers_below_min` equals the raw offers (blacklisted or not)
priced strictly below the configured floor whenever at least one offer survives
the blacklist filter, and is empty when no floor is configured; but when the
blacklist filters out every offer the early return reports it empty regardless of
the floor, so a blacklist change only leaves `sellers_below_min` unchanged as
long as at least one offer still survives on both sides. -/
theorem sellers_below_min_characterization (payload : Payload)
    (offers : List StandardCompetitorOffer) :
    (payload.get_min_price_value = none →
      (analyze_competition payload offers).sellers_below_min = some []) ∧
    (offers.filter
        (fun o => !(isBlacklisted (payload.fetched_black_list.getD []) o.seller_name)) = [] →
      (analyze_competition payload offers).sellers_below_min = some []) ∧
    (∀ m, payload.get_min_price_value = some m →
      offers.filter
        (fun o => !(isBlacklisted (payload.fetched_black_list.getD []) o.seller_name)) ≠ [] →
      (analyze_competition payload offers).sellers_below_min =
        some (offers.filter (fun o => decide (o.price < m)))) ∧
    (∀ other : Payload, other.get_min_price_value = payload.get_min_price_value →
      offers.filter
        (fun o => !(isBlacklisted (other.fetched_black_list.getD []) o.seller_name)) ≠ [] →
      offers.filter
        (fun o => !(isBlacklisted (payload.fetched_black_list.getD []) o.seller_name)) ≠ [] →
      (analyze_competition other offers).sellers_below_min =
        (analyze_competition payload offers).sellers_below_min) := by
  have key : ∀ q : Payload,
      offers.filter
        (fun o => !(isBlacklisted (q.fetched_black_list.getD []) o.seller_name)) ≠ [] →
      (analyze_competition q offers).sellers_below_min =
        some (match q.get_min_price_value with
          | none => []
          | some m => offers.filter (fun o => decide (o.price < m))) := by
    intro q hq
    cases hf : offers.filter
        (fun o => !(isBlacklisted (q.fetched_black_list.getD []) o.seller_name)) with
    | nil => exact absurd hf hq
    | cons o rest =>
        cases hm : q.get_min_price_value with
        | none => simp [analyze_competition, hf, hm]
        | some m => simp [analyze_competition, hf, hm]
  refine ⟨?_, ?_, ?_, ?_⟩
  · intro hm
    cases hf : offers.filter
        (fun o => !(isBlacklisted (payload.fetched_black_list.getD []) o.seller_name)) with
    | nil => simp [analyze_competition, hf]
    | cons o rest => simp [analyze_competition, hf, hm]
  · intro hf
    simp [analyze_competition, hf]
  · intro m hm hne
    rw [key payload hne, hm]
  · intro other hmin hne1 hne2
    rw [key other hne1, key payload hne2, hmin]

/-- C1 amended witness: floor 10, blacklist hiding one of two sellers but not
both — the below-floor audit list still reports both raw offers, identical to
the run with no blacklist at all. -/
theorem sellers_below_min_characterization_witness :
    (analyze_competition
        { product_name := "g", fetched_min_price := some 10,
          fetched_black_list := some ["A"] }
        [ { price := 5, seller_name := "A" }, { price := 6, seller_name := "B" } ]).sellers_below_min =
      some [ { price := 5, seller_name := "A" }, { price := 6, seller_name := "B" } ] ∧
    (analyze_competition
        { product_name := "g", fetched_min_price := some 10,
          fetched_black_list := some ["A"] }
        [ { price := 5, seller_name := "A" }, { price := 6, seller_name := "B" } ]).sellers_below_min =
      (analyze_competition
        { product_name := "g", fetched_min_price := some 10 }
        [ { price := 5, seller_name := "A" }, { price := 6, seller_name := "B" } ]).sellers_below_min := by
  have h1 := (sellers_below_min_characterization
      { product_name := "g", fetched_min_price := some 10,
        fetched_black_list := some ["A"] }
      [ { price := 5, seller_name := "A" }, { price := 6, seller_name := "B" } ]).2.2.1
      10 (by decide) (by decide)
  have h2 := (sellers_below_min_characterization
      { product_name := "g", fetched_min_price := some 10 }
      [ { price := 5, seller_name := "A" }, { price := 6, seller_name := "B" } ]).2.2.2
      { product_name := "g", fetched_min_price := some 10,
        fetched_black_list := some ["A"] }
      (by decide) (by decide) (by decide)
  exact ⟨by rw [h1]; decide, h2⟩

/-- C9: the analyzer never consults an offer's `is_eligible` flag or `note` — on
an offer list whose lowest-priced non-blacklisted offer was marked ineligible by
the adapter (`is_eligible = False` with a rejection note), `analyze_competition`
still selects that offer's price and seller as the competitive target. -/
theorem analyze_competition_ignores_is_eligible :
    (analyze_competition { product_name := "g" }
        [ { price := 10, seller_name := "good" },
          { price := 5, seller_name := "cheap", is_eligible := false,
            note := some ("Base < Min (5)") } ]).competitor_name = some ("cheap") ∧
    (analyze_competition { product_name := "g" }
        [ { price := 10, seller_name := "good" },
          { price := 5, seller_name := "cheap", is_eligible := false,
            note := some ("Base < Min (5)") } ]).competitive_price = some 5 ∧
    ({ price := 5, seller_name := "cheap", is_eligible := false,
        note := some ("Base < Min (5)") } : StandardCompetitorOffer).is_eligible = false := by
  exact ⟨by decide, by decide, by decide⟩

/-! ### Claims about the Significance Filter -/

/-- The step size in the words of the specification: `10^-price_rounding` if
rounding is configured, else `0.01`. -/
def spec_step (p : Payload) : ℚ :=
  match p.price_rounding with
  | some n => (10 : ℚ) ^ (-n)
  | none => 0.01

/-- The noise magnitude in the words of the specification:
`|max_price_adjustment - min_price_adjustment|` if both present, else `0`. -/
def spec_noise (p : Payload) : ℚ :=
  match p.min_price_adjustment, p.max_price_adjustment with
  | some a, some b => |b - a|
  | _, _ => 0

theorem spec_step_pos (p : Payload) : 0 < spec_step p := by
  rw [spec_step]
  cases p.price_rounding with
  | none => norm_num
  | some n => positivity

theorem sig_threshold_eq_spec (p : Payload) :
    sig_threshold p = max (spec_noise p + spec_step p / 2) (spec_step p * (3 / 2)) := by
  rw [sig_threshold, spec_step, spec_noise]
  cases p.price_rounding <;>
    cases p.min_price_adjustment <;>
    cases p.max_price_adjustment <;>
    simp [zpow_neg, div_eq_mul_inv, one_div] <;>
    norm_num

/-- C8: the significance filter returns true iff
`|a - b| > max(noise + step/2, step * 1.5)` with `step = 10^-price_rounding`
(`0.01` when rounding is unset) and `noise = |max_price_adjustment -
min_price_adjustment|` (`0` unless both are set); in particular it is false on
equal prices. -/
theorem is_price_diff_significant_spec (p : Payload) (a b : ℚ) :
    (is_price_diff_significant p a b = true ↔
      |a - b| > max (spec_noise p + spec_step p / 2) (spec_step p * (3 / 2))) ∧
    is_price_diff_significant p b b = false := by
  have hpos : 0 < sig_threshold p := by
    rw [sig_threshold_eq_spec]
    refine lt_of_lt_of_le ?_ (le_max_right _ _)
    have := spec_step_pos p
    linarith
  constructor
  · rw [is_price_diff_significant, sig_threshold_eq_spec]
    exact decide_eq_true_iff
  · rw [is_price_diff_significant]
    simp only [sub_self, abs_zero, decide_eq_false_iff_not, not_lt]
    exact hpos.le

/-! ### Claims about the Price Calculator -/

theorem le_round_up (x : ℚ) (n : ℤ) : x ≤ round_up_to_n_decimals x n := by
  rw [round_up_to_n_decimals]
  have hpow : (0:ℚ) < 10 ^ n := zpow_pos (by norm_num) n
  rw [le_div_iff hpow]
  exact Int.le_ceil _

theorem round_up_mono (x y : ℚ) (n : ℤ) (h : x ≤ y) :
    round_up_to_n_decimals x n ≤ round_up_to_n_decimals y n := by
  rw [round_up_to_n_decimals, round_up_to_n_decimals]
  have hpow : (0:ℚ) < 10 ^ n := zpow_pos (by norm_num) n
  gcongr

/-- The effective upper cap of the calculator once rounding is taken into
account: the ceiling-rounded max bound when rounding is configured, else the
max bound itself. -/
def round_cap (rounding : Option ℤ) (mx : ℚ) : ℚ :=
  match rounding with
  | some n => round_up_to_n_decimals mx n
  | none => mx

/-- The clamped-then-rounded body: the result is at least the min bound (when the
bounds are ordered) and at most the ceiling-rounded max bound. -/
theorem calc_price_body_bounds (p : Payload) (v d mn mx : ℚ)
    (hmn : p.fetched_min_price = some mn) (hmx : p.fetched_max_price = some mx)
    (hle : mn ≤ mx) :
    mn ≤ (calc_price_body p v d).2 ∧
      (calc_price_body p v d).2 ≤ round_cap p.price_rounding mx := by
  rw [calc_price_body, round_cap.eq_def]
  cases p.min_price_adjustment <;> cases p.max_price_adjustment <;>
    · simp only [hmn, hmx]
      set w : ℚ := _
      have h2 : mn ≤ min (max w mn) mx := le_min (le_max_right _ _) hle
      have h3 : min (max w mn) mx ≤ mx := min_le_right _ _
      cases hr : p.price_rounding with
      | none => exact ⟨h2, h3⟩
      | some n =>
          exact ⟨h2.trans (le_round_up _ n), round_up_mono _ _ n h3⟩

/-- C2 counterexample: with bounds `[0, 1/2]`, zero-decimal ceiling rounding and
candidate price 2, the calculator clamps to `1/2` and *then* rounds up to `1`,
which exceeds the configured `fetched_max_price = 1/2` — the result is not within
`[fetched_min_price, fetched_max_price]`. -/
theorem calc_final_price_exceeds_max_counterexample :
    (calc_final_price
        { product_name := "x", fetched_min_price := some 0,
          fetched_max_price := some (1/2), price_rounding := some 0 }
        (some 2) 0).2 = some 1 ∧
    ¬ ((1:ℚ) ≤ 1/2) := by
  constructor
  · norm_num [calc_final_price, calc_price_body, round_up_to_n_decimals]
    rw [Int.ceil_eq_iff] <;> norm_num
  · norm_num

/-- C2 (amended): with both bounds set and ordered, the calculator's result lies
in `[fetched_min_price, roundup(fetched_max_price)]`: the lower bound is always
respected, and the upper bound is respected exactly as the *ceiling-rounded* max
(so the raw `fetched_max_price` itself is only guaranteed when no rounding is
configured; rounding may overshoot it by less than one rounding step). -/
theorem calc_final_price_bounds (p : Payload) (c : Option ℚ) (d mn mx : ℚ)
    (hmn : p.fetched_min_price = some mn) (hmx : p.fetched_max_price = some mx)
    (hle : mn ≤ mx) :
    ∀ r, (calc_final_price p c d).2 = some r →
      mn ≤ r ∧
      r ≤ round_cap p.price_rounding mx ∧
      (p.price_rounding = none → r ≤ mx) := by
  intro r hr
  have hbody := fun v => calc_price_body_bounds
    { p with applied_adj := (0:ℚ) } v d mn mx hmn hmx hle
  have hcap : ∀ v, mn ≤ (calc_price_body { p with applied_adj := (0:ℚ) } v d).2 ∧
      (calc_price_body { p with applied_adj := (0:ℚ) } v d).2 ≤
        round_cap p.price_rounding mx := hbody
  cases c with
  | some pr =>
      simp only [calc_final_price] at hr
      obtain ⟨h1, h2⟩ := hcap pr
      rw [Option.some.injEq] at hr
      subst hr
      refine ⟨h1, h2, fun hnone => h2.trans ?_⟩
      rw [hnone]
      simp [round_cap]
  | none =>
      simp only [calc_final_price] at hr
      split at hr
      · exact absurd hr (by simp)
      · rename_i m _
        simp only [Option.some.injEq] at hr
        obtain ⟨h1, h2⟩ := hcap m
        subst hr
        refine ⟨h1, h2, fun hnone => h2.trans ?_⟩
        rw [hnone]
        simp [round_cap]

/-- C2 amended witness: bounds `[1, 2]`, no rounding, candidate 5 — the result 2
is clamped into `[1, 2]`. -/
theorem calc_final_price_bounds_witness :
    (calc_final_price
        { product_name := "x", fetched_min_price := some 1, fetched_max_price := some 2 }
        (some 5) 0).2 = some 2 ∧ (1:ℚ) ≤ 2 ∧ (2:ℚ) ≤ 2 := by
  have heval : (calc_final_price
      { product_name := "x", fetched_min_price := some 1, fetched_max_price := some 2 }
      (some 5) 0).2 = some 2 := by
    norm_num [calc_final_price, calc_price_body]
  have h := calc_final_price_bounds
    { product_name := "x", fetched_min_price := some 1, fetched_max_price := some 2 }
    (some 5) 0 1 2 rfl rfl (by norm_num) 2 heval
  exact ⟨heval, h.1, h.2.2 rfl⟩

/-- C3 counterexample: when both the candidate price and `fetched_max_price` are
absent, the calculator's short-circuit `return payload.fetched_max_price`
returns Python `None` — not a float, despite the `-> float` annotation. -/
theorem calc_final_price_returns_none_counterexample :
    (calc_final_price { product_name := "x" } none 0).2 = none := by
  rfl

/-- C3 (amended): the calculator returns a float whenever the candidate price or
`fetched_max_price` is present; an absent candidate is substituted by
`fetched_max_price`; but when both are absent the short-circuit returns the
absent upper bound itself, i.e. Python `None` rather than a float. -/
theorem calc_final_price_option_contract (p : Payload) (c : Option ℚ) (d : ℚ) :
    (∀ m, p.fetched_max_price = some m →
      calc_final_price p none d = calc_final_price p (some m) d) ∧
    (c.isSome ∨ p.fetched_max_price.isSome → ((calc_final_price p c d).2).isSome) ∧
    (c = none → p.fetched_max_price = none → (calc_final_price p c d).2 = none) := by
  refine ⟨?_, ?_, ?_⟩
  · intro m hm
    simp only [calc_final_price]
    simp [hm]
  · intro h
    cases c with
    | some pr => rw [calc_final_price]; simp
    | none =>
        rcases h with h | h
        · exact absurd h (by simp)
        · rw [calc_final_price]
          rcases hm : p.fetched_max_price with _ | m
          · rw [hm] at h; exact absurd h (by simp)
          · simp [hm]
  · intro hc hm
    subst hc
    rw [calc_final_price]
    simp [hm]

/-- C3 amended witness: with `fetched_max_price = 7` and no candidate, the
calculator behaves as if the candidate were 7 and does return a float. -/
theorem calc_final_price_option_contract_witness :
    calc_final_price { product_name := "x", fetched_max_price := some 7 } none 0 =
      calc_final_price { product_name := "x", fetched_max_price := some 7 } (some 7) 0 ∧
    ((calc_final_price { product_name := "x", fetched_max_price := some 7 } none 0).2).isSome = true := by
  have h := calc_final_price_option_contract
    { product_name := "x", fetched_max_price := some 7 } (none : Option ℚ) 0
  exact ⟨h.1 7 rfl, h.2.1 (Or.inr rfl)⟩

/-! ### Structural lemmas about the decision engine -/

theorem calc_price_body_fst (p : Payload) (v d : ℚ) :
    (calc_price_body p v d).1 = p ∨
      (calc_price_body p v d).1 = { p with applied_adj := d } := by
  rw [calc_price_body]
  cases p.min_price_adjustment <;> cases p.max_price_adjustment <;> simp

theorem calc_final_price_fst (p : Payload) (c : Option ℚ) (d : ℚ) :
    ∃ a, (calc_final_price p c d).1 = { p with applied_adj := a } := by
  cases c with
  | some pr =>
      rcases calc_price_body_fst { p with applied_adj := (0:ℚ) } pr d with h | h
      · exact ⟨0, by simp only [calc_final_price]; rw [h]⟩
      · exact ⟨d, by simp only [calc_final_price]; rw [h]⟩
  | none =>
      simp only [calc_final_price]
      split
      · exact ⟨0, rfl⟩
      · rename_i m _
        rcases calc_price_body_fst { p with applied_adj := (0:ℚ) } m d with h | h
        · exact ⟨0, by rw [h]⟩
        · exact ⟨d, by rw [h]⟩

theorem computeCandidate_fst (p : Payload) (offers : List StandardCompetitorOffer)
    (d : ℚ) :
    ∃ a, (computeCandidate p offers d).1 = { p with applied_adj := a } := by
  rw [computeCandidate]
  split
  · exact calc_final_price_fst p none d
  · exact calc_final_price_fst p (analyze_competition p offers).competitive_price d

/-- Every outcome of the mode-1/mode-2 dispatch carries the payload it was given,
and any update target it produces carries exactly the dispatched target price. -/
theorem modeDispatch_outcomes (mode : ℤ) (p : Payload)
    (offers : List StandardCompetitorOffer) (cname : Option String) (target : ℚ)
    (otype : String) :
    (∀ r, modeDispatch mode p offers cname target otype = .ok r →
        r.payload = p ∧ (∀ ct, r.final_price = some ct → ct.price = target)) ∧
    (∀ ep, modeDispatch mode p offers cname target otype = .error ep → ep.2 = p) := by
  rw [modeDispatch]
  constructor
  · intro r hr
    split_ifs at hr <;>
      [skip; skip; skip; skip; skip; skip] <;>
      first
      | (cases cname with
          | none => simp [mkCompareTarget, Except.map] at hr
          | some n =>
              simp only [mkCompareTarget, Except.map, Except.ok.injEq] at hr
              subst hr
              exact ⟨rfl, fun ct hct => by
                simp only [Option.some.injEq] at hct
                rw [← hct]⟩)
      | (simp only [Except.ok.injEq] at hr
         subst hr
         exact ⟨rfl, fun ct hct => by simp at hct⟩)
  · intro ep hep
    split_ifs at hep <;>
      first
      | (cases cname with
          | none =>
              simp only [mkCompareTarget, Except.map, Except.error.injEq] at hep
              rw [← hep]
          | some n => simp [mkCompareTarget, Except.map] at hep)
      | simp at hep

/-- With a `None` competitor name the dispatch can only hold, fail, or raise —
the update branches die constructing `CompareTarget(name=None, ...)`. -/
theorem modeDispatch_none_name (mode : ℤ) (p : Payload)
    (offers : List StandardCompetitorOffer) (target : ℚ) (otype : String) :
    ∀ r, modeDispatch mode p offers none target otype = .ok r →
      r.status = 0 ∨ r.status = 2 := by
  intro r hr
  rw [modeDispatch] at hr
  split_ifs at hr <;>
    simp only [mkCompareTarget, Except.map, Except.ok.injEq] at hr <;>
    first
    | (subst hr; right; rfl)
    | (subst hr; left; rfl)
    | exact Except.noConfusion hr

/-- A mode-2 update decision means the current price exceeded the target by more
than the significance threshold, and the decision carries that target. -/
theorem modeDispatch_two_update (p : Payload) (offers : List StandardCompetitorOffer)
    (cname : Option String) (target : ℚ) (otype : String) :
    ∀ r, modeDispatch 2 p offers cname target otype = .ok r → r.status = 1 →
      (∃ n, cname = some n ∧ r.final_price = some { name := n, price := target }) ∧
        p.current_price - target > sig_threshold p := by
  intro r hr hs
  rw [modeDispatch] at hr
  rw [if_neg (by norm_num), if_pos rfl] at hr
  by_cases hc1 : (decide (p.current_price < target) &&
      is_price_diff_significant p p.current_price target) = true
  · rw [if_pos hc1] at hr
    simp only [Except.ok.injEq] at hr
    subst hr
    exact absurd hs (by simp)
  · rw [if_neg hc1] at hr
    by_cases hc2 : is_price_diff_significant p p.current_price target = true
    · rw [if_neg (by simp [hc2])] at hr
      cases cname with
      | none => simp [mkCompareTarget, Except.map] at hr
      | some n =>
          simp only [mkCompareTarget, Except.map, Except.ok.injEq] at hr
          subst hr
          have hnotlt : ¬ p.current_price < target := by
            intro hlt
            exact hc1 (by simp [hlt, hc2])
          have hsig : |p.current_price - target| > sig_threshold p := by
            have := hc2
            rwa [is_price_diff_significant, decide_eq_true_iff] at this
          refine ⟨⟨n, rfl, rfl⟩, ?_⟩
          rwa [abs_of_nonneg (sub_nonneg.mpr (le_of_not_lt hnotlt))] at hsig
    · rw [if_pos (by simp [hc2])] at hr
      simp only [Except.ok.injEq] at hr
      subst hr
      exact absurd hs (by simp)

/-- Mode 2 with the current price strictly below the target always holds. -/
theorem modeDispatch_two_cur_lt (p : Payload) (offers : List StandardCompetitorOffer)
    (cname : Option String) (target : ℚ) (otype : String)
    (hlt : p.current_price < target) :
    ∃ r, modeDispatch 2 p offers cname target otype = .ok r ∧ r.status = 2 := by
  rw [modeDispatch]
  rw [if_neg (by norm_num), if_pos rfl]
  by_cases hsig : is_price_diff_significant p p.current_price target = true
  · rw [if_pos (by simp [hlt, hsig])]
    exact ⟨_, rfl, rfl⟩
  · rw [if_neg (by simp [hsig]), if_pos (by simp [hsig])]
    exact ⟨_, rfl, rfl⟩

/-- From `logic/universal_processor.py` line 181: no configured floor on a comparison
mode is refused. -/
theorem floorProtect_no_floor (mode : ℤ) (p : Payload)
    (offers : List StandardCompetitorOffer) (cname : Option String)
    (target : Option ℚ) (otype : String)
    (hm : p.get_min_price_value = none) :
    floorProtectAndDispatch mode p offers cname target otype =
      .ok { status := 0, payload := p, final_price := none,
            log_message := some (mkLog ("no_min_price")) } := by
  rw [floorProtectAndDispatch.eq_def, hm]

/-- From `logic/universal_processor.py` lines 173–176: a current price below the floor
forces the dispatch target to the floor with zeroed `applied_adj`. -/
theorem floorProtect_below_floor (mode : ℤ) (p : Payload)
    (offers : List StandardCompetitorOffer) (cname : Option String)
    (target : Option ℚ) (otype : String) (m : ℚ)
    (hm : p.get_min_price_value = some m) (hcur : p.current_price < m) :
    floorProtectAndDispatch mode p offers cname target otype =
      modeDispatch mode { p with applied_adj := (0:ℚ) } offers cname m otype := by
  rw [floorProtectAndDispatch.eq_def, hm]
  simp [hcur]

/-- From `logic/universal_processor.py` lines 177–179: with the current price at or
above the floor, a computed candidate strictly below the floor is refused. -/
theorem floorProtect_candidate_below (mode : ℤ) (p : Payload)
    (offers : List StandardCompetitorOffer) (cname : Option String)
    (otype : String) (t m : ℚ)
    (hm : p.get_min_price_value = some m) (hcur : ¬ p.current_price < m)
    (ht : t < m) :
    floorProtectAndDispatch mode p offers cname (some t) otype =
      .ok { status := 0, payload := p, final_price := none,
            log_message := some (mkLog ("below_min")) } := by
  rw [floorProtectAndDispatch.eq_def, hm]
  simp [hcur, ht]

/-- In a comparison mode the engine core is candidate computation followed by
floor protection and mode dispatch. -/
theorem process_core_eq_dispatch (p : Payload) (cur : StandardCurrentOffer)
    (offers : List StandardCompetitorOffer) (d : ℚ)
    (hmode : p.compare_mode ≠ 0) :
    process_core p cur offers d =
      floorProtectAndDispatch p.compare_mode
        (computeCandidate
          { p with current_price := cur.price, offer_id := some cur.offer_id } offers d).1
        offers
        (computeCandidate
          { p with current_price := cur.price, offer_id := some cur.offer_id } offers d).2.2.1
        (computeCandidate
          { p with current_price := cur.price, offer_id := some cur.offer_id } offers d).2.1
        cur.offer_type := by
  rw [process_core]
  simp only [Payload.get_compare_mode]
  rw [if_neg hmode]

/-- With a valid payload and a fetched current offer, the result is the core's
`Except` run through the top-level exception handler. -/
theorem process_single_payload_eq_core (p : Payload) (cur : StandardCurrentOffer)
    (offers : List StandardCompetitorOffer) (d : ℚ)
    (hval : validate_payload p = true) :
    process_single_payload p (some cur) offers d =
      (match process_core p cur offers d with
        | .ok r => r
        | .error ep =>
            { status := 0, payload := ep.2, log_message := some ("Error: " ++ ep.1),
              final_price := none }) := by
  rw [process_single_payload]
  simp [hval]

theorem computeCandidate_fst_min (p : Payload) (offers : List StandardCompetitorOffer)
    (d : ℚ) :
    (computeCandidate p offers d).1.get_min_price_value = p.get_min_price_value := by
  obtain ⟨a, ha⟩ := computeCandidate_fst p offers d
  rw [ha]
  rfl

theorem computeCandidate_fst_current (p : Payload) (offers : List StandardCompetitorOffer)
    (d : ℚ) :
    (computeCandidate p offers d).1.current_price = p.current_price := by
  obtain ⟨a, ha⟩ := computeCandidate_fst p offers d
  rw [ha]

theorem computeCandidate_fst_sig (p : Payload) (offers : List StandardCompetitorOffer)
    (d : ℚ) :
    sig_threshold (computeCandidate p offers d).1 = sig_threshold p := by
  obtain ⟨a, ha⟩ := computeCandidate_fst p offers d
  rw [ha]
  rfl

/-! ### Claims about the Mode-Dispatch Decision Engine -/

/-- C4: in modes 1 and 2, when a price floor is configured and the fetched
current price is strictly below it, the engine forces any produced target price
to be exactly the floor value (discarding the computed candidate, regardless of
competitor prices) and the recorded randomization adjustment `applied_adj` of
the decision's payload is zero. -/
theorem floor_protection_forces_floor (p : Payload) (cur : StandardCurrentOffer)
    (offers : List StandardCompetitorOffer) (d m : ℚ)
    (hval : validate_payload p = true)
    (hmode : p.compare_mode = 1 ∨ p.compare_mode = 2)
    (hm : p.get_min_price_value = some m)
    (hcur : cur.price < m) :
    (process_single_payload p (some cur) offers d).payload.applied_adj = 0 ∧
      ∀ ct, (process_single_payload p (some cur) offers d).final_price = some ct →
        ct.price = m := by
  have hmode0 : p.compare_mode ≠ 0 := by
    rcases hmode with h | h <;> rw [h] <;> norm_num
  rw [process_single_payload_eq_core p cur offers d hval,
      process_core_eq_dispatch p cur offers d hmode0]
  have hm1 : (computeCandidate
      { p with current_price := cur.price, offer_id := some cur.offer_id }
      offers d).1.get_min_price_value = some m := by
    rw [computeCandidate_fst_min]
    exact hm
  have hcur1 : (computeCandidate
      { p with current_price := cur.price, offer_id := some cur.offer_id }
      offers d).1.current_price < m := by
    rw [computeCandidate_fst_current]
    exact hcur
  rw [floorProtect_below_floor _ _ _ _ _ _ m hm1 hcur1]
  obtain ⟨hok, herr⟩ := modeDispatch_outcomes p.compare_mode
    { (computeCandidate
        { p with current_price := cur.price, offer_id := some cur.offer_id }
        offers d).1 with applied_adj := (0:ℚ) }
    offers
    (computeCandidate
      { p with current_price := cur.price, offer_id := some cur.offer_id }
      offers d).2.2.1
    m cur.offer_type
  cases hdisp : modeDispatch p.compare_mode
      { (computeCandidate
          { p with current_price := cur.price, offer_id := some cur.offer_id }
          offers d).1 with applied_adj := (0:ℚ) }
      offers
      (computeCandidate
        { p with current_price := cur.price, offer_id := some cur.offer_id }
        offers d).2.2.1
      m cur.offer_type with
  | ok r =>
      obtain ⟨hpay, hct⟩ := hok r hdisp
      refine ⟨?_, fun ct hct2 => hct ct hct2⟩
      show r.payload.applied_adj = 0
      rw [hpay]
  | error ep =>
      have hp := herr ep hdisp
      refine ⟨?_, fun ct hct => ?_⟩
      · show ep.2.applied_adj = 0
        rw [hp]
      · exact absurd hct (by simp)

/-- C4 witness (the spec's end-to-end example): floor 5, current price 4, mode 1,
competitor at 8 — the floor-protection path forces the target to 5 with zeroed
randomization. -/
theorem floor_protection_forces_floor_witness :
    (process_single_payload
        { product_name := "x", compare_mode := 1, fetched_min_price := some 5,
          fetched_max_price := some 20 }
        (some { offer_id := "o1", price := 4, status := "live", offer_type := "key" })
        [ { price := 8, seller_name := "B" } ] 0).payload.applied_adj = 0 ∧
    (process_single_payload
        { product_name := "x", compare_mode := 1, fetched_min_price := some 5,
          fetched_max_price := some 20 }
        (some { offer_id := "o1", price := 4, status := "live", offer_type := "key" })
        [ { price := 8, seller_name := "B" } ] 0).final_price =
      some { name := "B", price := 5 } := by
  have h := floor_protection_forces_floor
    { product_name := "x", compare_mode := 1, fetched_min_price := some 5,
      fetched_max_price := some 20 }
    { offer_id := "o1", price := 4, status := "live", offer_type := "key" }
    [ { price := 8, seller_name := "B" } ] 0 5
    (by decide) (Or.inl rfl) rfl (by norm_num)
  refine ⟨h.1, ?_⟩
  norm_num [process_single_payload, validate_payload, process_core, computeCandidate,
    analyze_competition, isBlacklisted, pyLower, pyMinByPrice, calc_final_price,
    calc_price_body, floorProtectAndDispatch, modeDispatch, mkCompareTarget,
    is_price_diff_significant, sig_threshold, mkLog, Payload.get_compare_mode,
    Payload.get_min_price_value, Except.map, String.ext_iff]

/-- C6: in modes 1 and 2, with no configured price floor the engine returns a
fail decision (status 0) with no price update; and with a floor configured,
current price at or above it, but a computed candidate strictly below it, the
engine also returns a fail decision with no price update. -/
theorem comparison_mode_fail_paths (p : Payload) (cur : StandardCurrentOffer)
    (offers : List StandardCompetitorOffer) (d : ℚ)
    (hval : validate_payload p = true)
    (hmode : p.compare_mode = 1 ∨ p.compare_mode = 2) :
    (p.get_min_price_value = none →
      (process_single_payload p (some cur) offers d).status = 0 ∧
      (process_single_payload p (some cur) offers d).final_price = none) ∧
    (∀ m t, p.get_min_price_value = some m → ¬ cur.price < m →
      (computeCandidate
        { p with current_price := cur.price, offer_id := some cur.offer_id }
        offers d).2.1 = some t →
      t < m →
      (process_single_payload p (some cur) offers d).status = 0 ∧
      (process_single_payload p (some cur) offers d).final_price = none) := by
  have hmode0 : p.compare_mode ≠ 0 := by
    rcases hmode with h | h <;> rw [h] <;> norm_num
  rw [process_single_payload_eq_core p cur offers d hval,
      process_core_eq_dispatch p cur offers d hmode0]
  constructor
  · intro hm
    have hm1 : (computeCandidate
        { p with current_price := cur.price, offer_id := some cur.offer_id }
        offers d).1.get_min_price_value = none := by
      rw [computeCandidate_fst_min]
      exact hm
    rw [floorProtect_no_floor _ _ _ _ _ _ hm1]
    exact ⟨rfl, rfl⟩
  · intro m t hm hcur htarget ht
    have hm1 : (computeCandidate
        { p with current_price := cur.price, offer_id := some cur.offer_id }
        offers d).1.get_min_price_value = some m := by
      rw [computeCandidate_fst_min]
      exact hm
    have hcur1 : ¬ (computeCandidate
        { p with current_price := cur.price, offer_id := some cur.offer_id }
        offers d).1.current_price < m := by
      rw [computeCandidate_fst_current]
      exact hcur
    rw [htarget, floorProtect_candidate_below _ _ _ _ _ t m hm1 hcur1 ht]
    exact ⟨rfl, rfl⟩

/-- C6 witness: mode 1, floor 10 but `fetched_max_price = 9`, competitor at 8,
current price 12 — the candidate clamps to 9, below the floor, and the engine
fails without an update; and the same config with the floor removed fails
immediately. -/
theorem comparison_mode_fail_paths_witness :
    (process_single_payload
        { product_name := "x", compare_mode := 1, fetched_min_price := some 10,
          fetched_max_price := some 9 }
        (some { offer_id := "o1", price := 12, status := "live", offer_type := "key" })
        [ { price := 8, seller_name := "B" } ] 0).status = 0 ∧
    (process_single_payload
        { product_name := "x", compare_mode := 1, fetched_min_price := some 10,
          fetched_max_price := some 9 }
        (some { offer_id := "o1", price := 12, status := "live", offer_type := "key" })
        [ { price := 8, seller_name := "B" } ] 0).final_price = none ∧
    (process_single_payload
        { product_name := "x", compare_mode := 2 }
        (some { offer_id := "o1", price := 12, status := "live", offer_type := "key" })
        [ { price := 8, seller_name := "B" } ] 0).status = 0 := by
  have h1 := (comparison_mode_fail_paths
    { product_name := "x", compare_mode := 1, fetched_min_price := some 10,
      fetched_max_price := some 9 }
    { offer_id := "o1", price := 12, status := "live", offer_type := "key" }
    [ { price := 8, seller_name := "B" } ] 0 (by decide) (Or.inl rfl)).2
    10 9 rfl (by norm_num) (by decide) (by norm_num)
  have h2 := (comparison_mode_fail_paths
    { product_name := "x", compare_mode := 2 }
    { offer_id := "o1", price := 12, status := "live", offer_type := "key" }
    [ { price := 8, seller_name := "B" } ] 0 (by decide) (Or.inr rfl)).1 rfl
  exact ⟨h1.1, h1.2, h2.1⟩

/-- When the competitor list is non-empty but every offer is blacklisted, the
candidate computation takes the analysis branch and produces a `None` competitor
name. -/
theorem computeCandidate_cname_none (p : Payload)
    (offers : List StandardCompetitorOffer) (d : ℚ) (hne : offers ≠ [])
    (hbl : ∀ o ∈ offers,
      isBlacklisted (p.fetched_black_list.getD []) o.seller_name = true) :
    (computeCandidate p offers d).2.2.1 = none := by
  rw [computeCandidate]
  rw [if_neg (by simpa [List.isEmpty_iff] using hne)]
  have hf : offers.filter
      (fun o => !(isBlacklisted (p.fetched_black_list.getD []) o.seller_name)) = [] := by
    rw [List.filter_eq_nil]
    intro o ho
    simp [hbl o ho]
  simp [analyze_competition, hf]

/-- A floor-protected dispatch with a `None` competitor name never returns an
update: only fail or hold (or it raises). -/
theorem floorProtect_none_name_status (mode : ℤ) (p : Payload)
    (offers : List StandardCompetitorOffer) (target : Option ℚ) (otype : String) :
    ∀ r, floorProtectAndDispatch mode p offers none target otype = .ok r →
      r.status = 0 ∨ r.status = 2 := by
  intro r hr
  rw [floorProtectAndDispatch.eq_def] at hr
  split at hr
  · simp only [Except.ok.injEq] at hr
    subst hr
    exact Or.inl rfl
  · rename_i m hm
    split at hr
    · exact modeDispatch_none_name mode _ offers m otype r hr
    · split at hr
      · exact Except.noConfusion hr
      · split at hr
        · simp only [Except.ok.injEq] at hr
          subst hr
          exact Or.inl rfl
        · exact modeDispatch_none_name mode p offers _ otype r hr

/-- C10: in modes 1 and 2, when the competitor list is non-empty but every offer
is blacklisted, the engine can never return an update decision (status 1): the
analysis yields a null competitor name, any update branch raises building a
`CompareTarget` from it, and the top-level handler turns that into a fail — the
only possible outcomes are hold or fail. -/
theorem all_blacklisted_never_update (p : Payload) (cur : StandardCurrentOffer)
    (offers : List StandardCompetitorOffer) (d : ℚ)
    (hval : validate_payload p = true)
    (hmode : p.compare_mode = 1 ∨ p.compare_mode = 2)
    (hne : offers ≠ [])
    (hbl : ∀ o ∈ offers,
      isBlacklisted (p.fetched_black_list.getD []) o.seller_name = true) :
    (process_single_payload p (some cur) offers d).status ≠ 1 ∧
    ((process_single_payload p (some cur) offers d).status = 0 ∨
      (process_single_payload p (some cur) offers d).status = 2) := by
  have hmode0 : p.compare_mode ≠ 0 := by
    rcases hmode with h | h <;> rw [h] <;> norm_num
  rw [process_single_payload_eq_core p cur offers d hval,
      process_core_eq_dispatch p cur offers d hmode0]
  have hcname : (computeCandidate
      { p with current_price := cur.price, offer_id := some cur.offer_id }
      offers d).2.2.1 = none := by
    apply computeCandidate_cname_none _ offers d hne
    intro o ho
    exact hbl o ho
  rw [hcname]
  cases hdisp : floorProtectAndDispatch p.compare_mode
      (computeCandidate
        { p with current_price := cur.price, offer_id := some cur.offer_id }
        offers d).1
      offers none
      (computeCandidate
        { p with current_price := cur.price, offer_id := some cur.offer_id }
        offers d).2.1
      cur.offer_type with
  | ok r =>
      have h02 := floorProtect_none_name_status p.compare_mode _ offers _ cur.offer_type r hdisp
      constructor
      · show r.status ≠ 1
        rcases h02 with h | h <;> rw [h] <;> norm_num
      · exact h02
  | error ep =>
      refine ⟨?_, Or.inl rfl⟩
      show (0:ℕ) ≠ 1
      norm_num

/-- C10 witness: mode 1, floor 3, one competitor entirely blacklisted
(case-insensitively) and no `fetched_max_price` — the candidate is `None`, the
floor comparison raises a `TypeError`, and the engine fails (status 0, never 1).
-/
theorem all_blacklisted_never_update_witness :
    (process_single_payload
        { product_name := "x", compare_mode := 1, fetched_min_price := some 3,
          fetched_black_list := some ["SellerA"] }
        (some { offer_id := "o1", price := 4, status := "live", offer_type := "key" })
        [ { price := 5, seller_name := "sellera" } ] 0).status = 0 ∧
    (process_single_payload
        { product_name := "x", compare_mode := 1, fetched_min_price := some 3,
          fetched_black_list := some ["SellerA"] }
        (some { offer_id := "o1", price := 4, status := "live", offer_type := "key" })
        [ { price := 5, seller_name := "sellera" } ] 0).status ≠ 1 := by
  have h := all_blacklisted_never_update
    { product_name := "x", compare_mode := 1, fetched_min_price := some 3,
      fetched_black_list := some ["SellerA"] }
    { offer_id := "o1", price := 4, status := "live", offer_type := "key" }
    [ { price := 5, seller_name := "sellera" } ] 0
    (by decide) (Or.inl rfl) (by decide) (by decide)
  refine ⟨by decide, h.1⟩

/-- From `logic/universal_processor.py` lines 172–184: with the floor checks passing
(current at or above the floor, candidate not below it) the dispatch runs on the
computed candidate unchanged. -/
theorem floorProtect_pass (mode : ℤ) (q : Payload)
    (offers : List StandardCompetitorOffer) (cname : Option String)
    (otype : String) (t m : ℚ)
    (hm : q.get_min_price_value = some m) (hcur : ¬ q.current_price < m)
    (ht : ¬ t < m) :
    floorProtectAndDispatch mode q offers cname (some t) otype =
      modeDispatch mode q offers cname t otype := by
  rw [floorProtectAndDispatch.eq_def, hm]
  simp [hcur, ht]

/-- A mode-2 update decision out of floor protection always carries a target
strictly below the current price by more than the significance threshold. -/
theorem floorProtect_two_status_one (q : Payload)
    (offers : List StandardCompetitorOffer) (cname : Option String)
    (target : Option ℚ) (otype : String) :
    ∀ r, floorProtectAndDispatch 2 q offers cname target otype = .ok r →
      r.status = 1 →
      ∃ ct, r.final_price = some ct ∧
        q.current_price - ct.price > sig_threshold q := by
  intro r hr hs
  rw [floorProtectAndDispatch.eq_def] at hr
  split at hr
  · simp only [Except.ok.injEq] at hr
    subst hr
    exact absurd hs (by norm_num)
  · rename_i m hm
    split at hr
    · obtain ⟨⟨n, hn, hfp⟩, hgt⟩ :=
        modeDispatch_two_update _ offers cname m otype r hr hs
      exact ⟨{ name := n, price := m }, hfp, hgt⟩
    · split at hr
      · exact Except.noConfusion hr
      · split at hr
        · simp only [Except.ok.injEq] at hr
          subst hr
          exact absurd hs (by norm_num)
        · obtain ⟨⟨n, hn, hfp⟩, hgt⟩ :=
            modeDispatch_two_update q offers cname _ otype r hr hs
          exact ⟨{ name := n, price := _ }, hfp, hgt⟩

/-- In mode 2, a current price strictly below the candidate target always yields
a hold, provided a floor is configured. -/
theorem floorProtect_two_cur_lt (q : Payload)
    (offers : List StandardCompetitorOffer) (cname : Option String)
    (otype : String) (m t : ℚ)
    (hm : q.get_min_price_value = some m)
    (hlt : q.current_price < t) :
    ∃ r, floorProtectAndDispatch 2 q offers cname (some t) otype = .ok r ∧
      r.status = 2 := by
  by_cases hcur : q.current_price < m
  · rw [floorProtect_below_floor 2 q offers cname (some t) otype m hm hcur]
    exact modeDispatch_two_cur_lt _ offers cname m otype hcur
  · have htm : ¬ t < m := fun h => hcur (lt_trans hlt h)
    rw [floorProtect_pass 2 q offers cname otype t m hm hcur htm]
    exact modeDispatch_two_cur_lt q offers cname t otype hlt

/-- C5 counterexample: mode 2 with no configured floor, current price 5 and a
computed target of 10 — the current price is strictly below the target, yet the
decision is fail (status 0), not hold: the hold claim does not cover the
floor-protection fail paths. -/
theorem mode2_hold_counterexample :
    (process_single_payload
        { product_name := "x", compare_mode := 2, fetched_max_price := some 10 }
        (some { offer_id := "o1", price := 5, status := "live", offer_type := "key" })
        [] 0).status = 0 ∧
    (computeCandidate
        { product_name := "x", compare_mode := 2, fetched_max_price := some 10,
          current_price := 5, offer_id := some ("o1") } [] 0).2.1 = some 10 ∧
    (5:ℚ) < 10 := by
  exact ⟨by decide, by decide, by norm_num⟩

/-- C5 (amended): in mode 2, every update decision has its target strictly below
the current price by more than the significance threshold; and whenever the
current price is strictly below the computed target, the decision is never an
update — it is a hold whenever a floor is configured (without a floor, or when
the candidate breaches the floor, the engine fails instead of holding). -/
theorem mode2_never_raises (p : Payload) (cur : StandardCurrentOffer)
    (offers : List StandardCompetitorOffer) (d : ℚ)
    (hval : validate_payload p = true)
    (hmode : p.compare_mode = 2) :
    ((process_single_payload p (some cur) offers d).status = 1 →
      ∃ ct, (process_single_payload p (some cur) offers d).final_price = some ct ∧
        cur.price - ct.price > sig_threshold p) ∧
    (∀ m t, p.get_min_price_value = some m →
      (computeCandidate
        { p with current_price := cur.price, offer_id := some cur.offer_id }
        offers d).2.1 = some t →
      cur.price < t →
      (process_single_payload p (some cur) offers d).status = 2) := by
  have hmode0 : p.compare_mode ≠ 0 := by rw [hmode]; norm_num
  rw [process_single_payload_eq_core p cur offers d hval,
      process_core_eq_dispatch p cur offers d hmode0]
  have hc1min := computeCandidate_fst_min
    { p with current_price := cur.price, offer_id := some cur.offer_id } offers d
  have hc1cur := computeCandidate_fst_current
    { p with current_price := cur.price, offer_id := some cur.offer_id } offers d
  have hc1sig := computeCandidate_fst_sig
    { p with current_price := cur.price, offer_id := some cur.offer_id } offers d
  generalize hq : computeCandidate
      { p with current_price := cur.price, offer_id := some cur.offer_id } offers d = c
    at hc1min hc1cur hc1sig ⊢
  rw [hmode]
  constructor
  · intro hs
    cases hdisp : floorProtectAndDispatch 2 c.1 offers c.2.2.1 c.2.1 cur.offer_type with
    | ok r =>
        rw [hdisp] at hs
        obtain ⟨ct, hfp, hgt⟩ :=
          floorProtect_two_status_one c.1 offers c.2.2.1 c.2.1 cur.offer_type r hdisp hs
        refine ⟨ct, hfp, ?_⟩
        rw [hc1cur, hc1sig] at hgt
        exact hgt
    | error ep =>
        rw [hdisp] at hs
        exact absurd hs (by simp)
  · intro m t hm htarget hlt
    have hm1 : c.1.get_min_price_value = some m := by rw [hc1min]; exact hm
    have hlt1 : c.1.current_price < t := by rw [hc1cur]; exact hlt
    rw [htarget]
    obtain ⟨r, hr, hst⟩ :=
      floorProtect_two_cur_lt c.1 offers c.2.2.1 cur.offer_type m t hm1 hlt1
    rw [hr]
    exact hst

/-- C5 amended witness (the spec's example): mode 2, current 7.00, computed
target 9.00 (competitor raised price) — the engine holds, never raising the
price. -/
theorem mode2_never_raises_witness :
    (process_single_payload
        { product_name := "x", compare_mode := 2, fetched_min_price := some 5,
          fetched_max_price := some 9 }
        (some { offer_id := "o1", price := 7, status := "live", offer_type := "key" })
        [ { price := 9, seller_name := "B" } ] 0).status = 2 := by
  exact (mode2_never_raises
    { product_name := "x", compare_mode := 2, fetched_min_price := some 5,
      fetched_max_price := some 9 }
    { offer_id := "o1", price := 7, status := "live", offer_type := "key" }
    [ { price := 9, seller_name := "B" } ] 0 (by decide) rfl).2
    5 9 rfl (by decide) (by norm_num)

end DriffleTool
